import Mathlib

/-!
Shallow embedding of `src/databasecheck/databasecheck.py` (class `DatabaseCheck`),
together with theorems settling the claims about it.

The embedding keeps the source function names where Lean allows it:
`check_against_database`, `get_sketches_reports`, `get_json_response`,
`raw_http_request`, `get_artifact`, `get_page_count`.
-/

namespace DatabaseCheck

/-! ## Python scalar values used by the comparator

The comparator (databasecheck.py lines 288-308) compares dictionary values
against the string literals "false" and "true" with Python `==`.  The values
occurring in the reports are JSON strings or JSON booleans; in Python,
`bool == str` is always `False`.  `PyVal` models exactly this. -/

inductive PyVal where
  | str (s : String)
  | bool (b : Bool)
deriving DecidableEq, Repr

/-- Python equality test of a value against a string literal: two strings are
equal iff their characters are; a Python `bool` never equals a `str`. -/
def PyVal.eqStr : PyVal → String → Bool
  | .str s, t => s = t
  | .bool _, _ => false

/-- One entry as accessed by `check_against_database`: it reads the top-level
keys `name` and `compilation_success` of each sketch report / database entry
(databasecheck.py lines 297-301). -/
structure SketchEntry where
  name : String
  compilation_success : PyVal
deriving DecidableEq, Repr

/-- The inner `for sketch_of_database in database_report` loop, lines 299-303:
it stops at the first database entry whose `name` equals the report name
(the `break` runs whether or not `compilation_success == "true"`), and flags
an inconsistency exactly when the report says "false" and that first matching
entry says "true". -/
def raisesInconsistency (database_report : List SketchEntry) (sketch_report : SketchEntry) : Bool :=
  if sketch_report.compilation_success.eqStr "false" then
    match database_report.find? (fun e => e.name == sketch_report.name) with
    | some e => e.compilation_success.eqStr "true"
    | none => false
  else false

/-- The flag `all_compilations_successful` after the outer loop of
`check_against_database` (lines 294-303): it starts `True` and is set to
`False` exactly when some report raises an inconsistency. -/
def all_compilations_successful (sketches_reports database_report : List SketchEntry) : Bool :=
  !(sketches_reports.any (raisesInconsistency database_report))

/-- Observable outcome of `check_against_database`: the final flag, the lines
printed, and `some 1` when the function calls `sys.exit(1)` (line 308) versus
`none` when it returns normally. -/
structure CheckResult where
  verdict_passed : Bool
  printed : List String
  exit_code : Option Nat
deriving DecidableEq, Repr

/-- Lines 288-308: after the loops, if the flag is down the function prints the
error annotation and exits with status 1; otherwise it just returns. -/
def check_against_database (sketches_reports database_report : List SketchEntry) : CheckResult :=
  if all_compilations_successful sketches_reports database_report then
    { verdict_passed := true, printed := [], exit_code := none }
  else
    { verdict_passed := false
      printed := ["::error::One or more compilations failed"]
      exit_code := some 1 }

/-- Exit code of the whole process after `check_against_database` runs as the
last step of the local-report path (lines 101-107): `sys.exit(1)` gives 1,
and a normal return lets `main` finish, so the process exits 0. -/
def process_exit_code (r : CheckResult) : Nat := r.exit_code.getD 0

/-! ## Helper lemmas for the comparator -/

lemma PyVal.eqStr_eq_true_iff (v : PyVal) (s : String) : v.eqStr s = true ↔ v = .str s := by
  cases v <;> simp [PyVal.eqStr]

lemma raisesInconsistency_of_not_false {db : List SketchEntry} {r : SketchEntry}
    (h : r.compilation_success ≠ .str "false") : raisesInconsistency db r = false := by
  unfold raisesInconsistency
  rw [if_neg]
  intro hc
  exact h ((PyVal.eqStr_eq_true_iff _ _).mp hc)

lemma raisesInconsistency_of_no_match {db : List SketchEntry} {r : SketchEntry}
    (h : ∀ e ∈ db, e.name ≠ r.name) : raisesInconsistency db r = false := by
  unfold raisesInconsistency
  have hfind : db.find? (fun e => e.name == r.name) = none := by
    rw [List.find?_eq_none]
    intro e he
    simpa using h e he
  rw [hfind]
  simp

lemma check_passes_iff (rs db : List SketchEntry) :
    check_against_database rs db = ⟨true, [], none⟩ ↔
      ∀ r ∈ rs, raisesInconsistency db r = false := by
  unfold check_against_database all_compilations_successful
  by_cases h : ∀ r ∈ rs, raisesInconsistency db r = false
  · have hany : rs.any (raisesInconsistency db) = false := by
      rw [List.any_eq_false]
      intro x hx
      simp [h x hx]
    rw [if_pos (by simp [hany])]
    exact iff_of_true rfl h
  · have hany : rs.any (raisesInconsistency db) = true := by
      rw [List.any_eq_true]
      push_neg at h
      obtain ⟨x, hx, hne⟩ := h
      refine ⟨x, hx, ?_⟩
      cases hv : raisesInconsistency db x
      · exact absurd hv hne
      · rfl
    rw [if_neg (by simp [hany])]
    exact iff_of_false (by simp) h

/-! ## Claim theorems about the comparator -/

/-- C1: with the actual report Blink/"false" and the database entry
Blink/"true", the verdict fails, the error annotation is printed and the
process exits 1; with the database entry Blink/"false", the verdict passes,
nothing is printed and the process exits 0. -/
theorem blink_end_to_end :
    (check_against_database [⟨"Blink", .str "false"⟩] [⟨"Blink", .str "true"⟩]
        = ⟨false, ["::error::One or more compilations failed"], some 1⟩
      ∧ process_exit_code
          (check_against_database [⟨"Blink", .str "false"⟩] [⟨"Blink", .str "true"⟩]) = 1)
    ∧ (check_against_database [⟨"Blink", .str "false"⟩] [⟨"Blink", .str "false"⟩]
        = ⟨true, [], none⟩
      ∧ process_exit_code
          (check_against_database [⟨"Blink", .str "false"⟩] [⟨"Blink", .str "false"⟩]) = 0) := by
  refine ⟨⟨?_, ?_⟩, ⟨?_, ?_⟩⟩ <;> decide

/-- C2: a failing actual report whose sketch name matches no database entry
raises no inconsistency, and a report set whose failing reports are all
unknown to the database always passes. -/
theorem unknown_sketch_not_flagged (db : List SketchEntry) (r : SketchEntry)
    (_hfail : r.compilation_success.eqStr "false" = true)
    (hunknown : ∀ e ∈ db, e.name ≠ r.name) :
    raisesInconsistency db r = false
    ∧ ∀ rs : List SketchEntry,
        (∀ x ∈ rs, x.compilation_success.eqStr "false" = true → ∀ e ∈ db, e.name ≠ x.name) →
        check_against_database rs db = ⟨true, [], none⟩ := by
  constructor
  · exact raisesInconsistency_of_no_match hunknown
  · intro rs hall
    rw [check_passes_iff]
    intro x hx
    by_cases hcs : x.compilation_success.eqStr "false" = true
    · exact raisesInconsistency_of_no_match (hall x hx hcs)
    · refine raisesInconsistency_of_not_false ?_
      intro heq
      exact hcs ((PyVal.eqStr_eq_true_iff _ _).mpr heq)

theorem unknown_sketch_not_flagged_witness :
    raisesInconsistency [⟨"Fade", .str "true"⟩] ⟨"Blink", .str "false"⟩ = false := by
  exact (unknown_sketch_not_flagged [⟨"Fade", .str "true"⟩] ⟨"Blink", .str "false"⟩
    (by decide) (by decide)).1

/-- C10: the comparator matches only the exact string literals "false" and
"true": a report whose compilation_success is anything else (a Python boolean,
or a differently-capitalised string) is never treated as a failure; a matched
database entry whose compilation_success is anything other than the string
"true" never raises an inconsistency; and a report set made of such inputs
always yields a passing verdict. -/
theorem exact_string_literal_matching (db : List SketchEntry) (r : SketchEntry) :
    (r.compilation_success ≠ .str "false" → raisesInconsistency db r = false)
    ∧ (∀ e, db.find? (fun x => x.name == r.name) = some e →
        e.compilation_success ≠ .str "true" → raisesInconsistency db r = false)
    ∧ (∀ rs : List SketchEntry,
        (∀ x ∈ rs, x.compilation_success ≠ .str "false"
          ∨ ∀ e, db.find? (fun y => y.name == x.name) = some e →
              e.compilation_success ≠ .str "true") →
        check_against_database rs db = ⟨true, [], none⟩) := by
  have key : ∀ x : SketchEntry,
      (x.compilation_success ≠ .str "false"
        ∨ ∀ e, db.find? (fun y => y.name == x.name) = some e →
            e.compilation_success ≠ .str "true") →
      raisesInconsistency db x = false := by
    intro x hx
    rcases hx with h | h
    · exact raisesInconsistency_of_not_false h
    · unfold raisesInconsistency
      by_cases hcs : x.compilation_success.eqStr "false" = true
      · rw [if_pos hcs]
        cases hfind : db.find? (fun y => y.name == x.name) with
        | none => rfl
        | some e =>
          have hne := h e hfind
          show e.compilation_success.eqStr "true" = false
          cases hv : e.compilation_success.eqStr "true"
          · rfl
          · exact absurd ((PyVal.eqStr_eq_true_iff _ _).mp hv) hne
      · rw [if_neg hcs]
  refine ⟨?_, ?_, ?_⟩
  · intro h
    exact key r (Or.inl h)
  · intro e hfind hne
    refine key r (Or.inr ?_)
    intro e' hfind'
    rw [hfind] at hfind'
    cases hfind'
    exact hne
  · intro rs hall
    rw [check_passes_iff]
    intro x hx
    exact key x (hall x hx)

theorem exact_string_literal_matching_witness :
    check_against_database
        [⟨"Blink", .bool false⟩, ⟨"Blink", .str "False"⟩]
        [⟨"Blink", .bool true⟩]
      = ⟨true, [], none⟩ := by
  refine (exact_string_literal_matching [⟨"Blink", .bool true⟩] ⟨"Blink", .bool false⟩).2.2
    [⟨"Blink", .bool false⟩, ⟨"Blink", .str "False"⟩] ?_
  intro x hx
  left
  simp only [List.mem_cons, List.not_mem_nil, or_false] at hx
  rcases hx with rfl | rfl <;> decide

/-! ## Permutation behaviour of the comparator (claim C3)

The database lookup stops at the first entry whose name matches
(databasecheck.py line 303: `break` after the first name match), so reordering
a database that holds two entries with the same name can change the verdict.
With pairwise-distinct database names the lookup is order-independent, and
reordering the actual reports never matters. -/

lemma find?_name_eq_of_perm {db db' : List SketchEntry} (hperm : db.Perm db')
    (hnodup : (db.map SketchEntry.name).Nodup) (n : String) :
    db.find? (fun e => e.name == n) = db'.find? (fun e => e.name == n) := by
  cases hfind : db.find? (fun e => e.name == n) with
  | none =>
    rw [List.find?_eq_none] at hfind
    symm
    rw [List.find?_eq_none]
    intro x hx
    exact hfind x (hperm.mem_iff.mpr hx)
  | some a =>
    have ha : a ∈ db := List.mem_of_find?_eq_some hfind
    have hpa := List.find?_some hfind
    symm
    cases hfind' : db'.find? (fun e => e.name == n) with
    | none =>
      rw [List.find?_eq_none] at hfind'
      exact absurd hpa (hfind' a (hperm.mem_iff.mp ha))
    | some b =>
      have hb : b ∈ db := hperm.mem_iff.mpr (List.mem_of_find?_eq_some hfind')
      have hpb := List.find?_some hfind'
      have hname : a.name = b.name := by
        simp only [beq_iff_eq] at hpa hpb
        rw [hpa, hpb]
      rw [List.inj_on_of_nodup_map hnodup ha hb hname]

/-- C3 (amended): reordering the actual reports never changes the comparator
outcome, for every database (duplicate names included); and reordering the
database entries never changes it provided no two database entries share a
name. -/
theorem verdict_invariant_under_permutation (rs rs' db db' : List SketchEntry)
    (hr : rs.Perm rs') :
    check_against_database rs db = check_against_database rs' db
    ∧ (db.Perm db' → (db.map SketchEntry.name).Nodup →
        check_against_database rs db = check_against_database rs' db') := by
  have hany : ∀ d : List SketchEntry,
      rs.any (raisesInconsistency d) = rs'.any (raisesInconsistency d) := by
    intro d
    cases hv : rs'.any (raisesInconsistency d) with
    | true =>
      obtain ⟨x, hx, hrx⟩ := List.any_eq_true.mp hv
      exact List.any_eq_true.mpr ⟨x, hr.mem_iff.mpr hx, hrx⟩
    | false =>
      rw [List.any_eq_false] at hv ⊢
      intro x hx
      exact hv x (hr.mem_iff.mp hx)
  constructor
  · unfold check_against_database all_compilations_successful
    rw [hany db]
  · intro hd hnodup
    have hpoint : ∀ r, raisesInconsistency db r = raisesInconsistency db' r := by
      intro r
      unfold raisesInconsistency
      rw [find?_name_eq_of_perm hd hnodup r.name]
    have hany2 : rs'.any (raisesInconsistency db) = rs'.any (raisesInconsistency db') := by
      cases hv : rs'.any (raisesInconsistency db') with
      | true =>
        obtain ⟨x, hx, hrx⟩ := List.any_eq_true.mp hv
        rw [← hpoint x] at hrx
        exact List.any_eq_true.mpr ⟨x, hx, hrx⟩
      | false =>
        rw [List.any_eq_false] at hv ⊢
        intro x hx
        rw [hpoint x]
        exact hv x hx
    unfold check_against_database all_compilations_successful
    rw [hany db, hany2]

theorem verdict_invariant_under_permutation_witness :
    check_against_database [⟨"Blink", .str "false"⟩, ⟨"Fade", .str "true"⟩]
        [⟨"Blink", .str "true"⟩, ⟨"Blink", .str "false"⟩]
      = check_against_database [⟨"Fade", .str "true"⟩, ⟨"Blink", .str "false"⟩]
        [⟨"Blink", .str "true"⟩, ⟨"Blink", .str "false"⟩]
    ∧ check_against_database [⟨"Blink", .str "false"⟩, ⟨"Fade", .str "true"⟩]
        [⟨"Blink", .str "true"⟩, ⟨"Fade", .str "false"⟩]
      = check_against_database [⟨"Fade", .str "true"⟩, ⟨"Blink", .str "false"⟩]
        [⟨"Fade", .str "false"⟩, ⟨"Blink", .str "true"⟩] := by
  constructor
  · exact (verdict_invariant_under_permutation
      [⟨"Blink", .str "false"⟩, ⟨"Fade", .str "true"⟩]
      [⟨"Fade", .str "true"⟩, ⟨"Blink", .str "false"⟩]
      [⟨"Blink", .str "true"⟩, ⟨"Blink", .str "false"⟩] []
      (List.Perm.swap _ _ _)).1
  · exact (verdict_invariant_under_permutation _ _ _ _
      (List.Perm.swap _ _ _)).2 (List.Perm.swap _ _ _) (by decide)

/-- C3 counterexample: with two database entries that share the name "Blink",
swapping them flips the verdict, so the claim as stated (permutation
invariance for every database list) is false. -/
theorem verdict_changed_by_database_permutation :
    List.Perm
        [(⟨"Blink", .str "true"⟩ : SketchEntry), ⟨"Blink", .str "false"⟩]
        [⟨"Blink", .str "false"⟩, ⟨"Blink", .str "true"⟩]
    ∧ check_against_database [⟨"Blink", .str "false"⟩]
        [⟨"Blink", .str "true"⟩, ⟨"Blink", .str "false"⟩]
      ≠ check_against_database [⟨"Blink", .str "false"⟩]
        [⟨"Blink", .str "false"⟩, ⟨"Blink", .str "true"⟩] := by
  exact ⟨List.Perm.swap _ _ _, by decide⟩

/-! ## JSON values and Python dictionary/list access

`get_sketches_reports` (databasecheck.py lines 253-286) probes the parsed JSON
of each report file with Python `in`, `[key]` and `[0]`; these operations can
raise `KeyError`, `IndexError` or `TypeError`, which the function does not
catch. `Json` models parsed JSON values (objects as association lists with
unique keys, as produced by `json.load`), and the access functions return
`Except PyErr`. -/

inductive Json where
  | null
  | bool (b : Bool)
  | num (n : Int)
  | str (s : String)
  | arr (elems : List Json)
  | obj (fields : List (String × Json))
deriving Repr

inductive PyErr where
  | keyError (k : String)
  | indexError
  | typeError
deriving DecidableEq, Repr

/-- Lookup of a key in the fields list of a JSON object. -/
def lookupKey : List (String × Json) → String → Option Json
  | [], _ => none
  | (k, v) :: rest, key => if k = key then some v else lookupKey rest key

/-- Python equality of a JSON value against a string: only an equal string
compares equal (bool, int, null, list, dict never equal a str). -/
def Json.eqStr : Json → String → Bool
  | .str s, t => s = t
  | _, _ => false

/-- Python `d[key]` for a string key: a key lookup in a dict (`KeyError` when
absent); a `TypeError` on the other shapes occurring in report files. -/
def Json.getKey : Json → String → Except PyErr Json
  | .obj fields, key =>
    match lookupKey fields key with
    | some v => .ok v
    | none => .error (.keyError key)
  | _, _ => .error .typeError

/-- Python `x[i]` for a non-negative integer index: list indexing
(`IndexError` when out of range), string indexing (a one-character string,
`IndexError` past the end), dict indexing (always `KeyError`, since JSON
object keys are strings so the int key is never present) and `TypeError`
on the scalar shapes. -/
def Json.getIdx : Json → Nat → Except PyErr Json
  | .arr elems, i =>
    match elems.get? i with
    | some v => .ok v
    | none => .error .indexError
  | .str s, i =>
    match s.data.get? i with
    | some c => .ok (.str (String.mk [c]))
    | none => .error .indexError
  | .obj _, i => .error (.keyError (toString i))
  | _, _ => .error .typeError

/-- Python `key in x` for a string key: key membership for a dict, element
membership for a list (a str key only equals str elements), substring test
for a string; `TypeError` on int, bool and null (`in` over those raises in
Python). -/
def Json.containsKey : Json → String → Except PyErr Bool
  | .obj fields, key => .ok (lookupKey fields key).isSome
  | .arr elems, key => .ok (elems.any (fun e => e.eqStr key))
  | .str s, key => .ok (s.containsSubstr key.toSubstring)
  | _, _ => .error .typeError

/-- Python truthiness of a JSON value (`if not json_data:` at line 345):
null, False, 0, "", [] and curly-empty dict are falsy. -/
def Json.isTruthy : Json → Bool
  | .null => false
  | .bool b => b
  | .num n => n != 0
  | .str s => !(s.isEmpty)
  | .arr elems => !elems.isEmpty
  | .obj fields => !fields.isEmpty

/-! ## The report loader -/

/-- The old-format probe of `get_sketches_reports`, lines 267-271:
`(boards not in report_data) or (maximum not in
report_data[boards][0][sizes][0])`, with Python short-circuit `or` and with
every access able to raise. Returns `ok true` when the file is to be skipped
as old-format. -/
def probeOldFormat (report_data : Json) : Except PyErr Bool :=
  match report_data.containsKey "boards" with
  | .error e => .error e
  | .ok false => .ok true
  | .ok true =>
    match report_data.getKey "boards" with
    | .error e => .error e
    | .ok boards =>
      match boards.getIdx 0 with
      | .error e => .error e
      | .ok board0 =>
        match board0.getKey "sizes" with
        | .error e => .error e
        | .ok sizes =>
          match sizes.getIdx 0 with
          | .error e => .error e
          | .ok size0 =>
            match size0.containsKey "maximum" with
            | .error e => .error e
            | .ok hasMax => .ok (!hasMax)

/-- Diagnostic printed when an old-format report is skipped (line 273). -/
def oldFormatMsg : String := "Old format sketches report found, skipping"

/-- Diagnostic printed when no report was retained (lines 283-284). -/
def noDeltasMsg : String :=
  "No size deltas data found in workflow artifact for this PR. The compile-examples " ++
  "action\x27s enable-size-deltas-report input must be set to true to produce size deltas data."

/-- The inner loop over `report_data[boards]`, lines 276-280: the report is
appended as soon as one board entry has a `sizes` key (`break`), and never
appended otherwise. Returns whether it was appended. -/
def anyBoardHasSizes : List Json → Except PyErr Bool
  | [] => .ok false
  | fqbn_data :: rest =>
    match fqbn_data.containsKey "sizes" with
    | .error e => .error e
    | .ok true => .ok true
    | .ok false => anyBoardHasSizes rest

/-- Processing of one report file inside the loop of `get_sketches_reports`
(lines 263-280): the old-format probe, then the board loop. Returns the
report to append (if any) together with the lines printed, or the uncaught
Python exception. -/
def stepFile (report_data : Json) : Except PyErr (Option Json × List String) :=
  match probeOldFormat report_data with
  | .error e => .error e
  | .ok true => .ok (none, [oldFormatMsg])
  | .ok false =>
    match report_data.getKey "boards" with
    | .error e => .error e
    | .ok boards =>
      match boards with
      | .arr fqbns =>
        match anyBoardHasSizes fqbns with
        | .error e => .error e
        | .ok true => .ok (some report_data, [])
        | .ok false => .ok (none, [])
      | _ => .error .typeError

/-- The loop over the (sorted) directory entries, accumulating the retained
reports and the printed lines in order. -/
def processFiles : List (String × Json) → Except PyErr (List Json × List String)
  | [] => .ok ([], [])
  | file :: rest =>
    match stepFile file.2 with
    | .error e => .error e
    | .ok (kept, msgs) =>
      match processFiles rest with
      | .error e => .error e
      | .ok (tailReports, tailMsgs) =>
        .ok ((match kept with
              | some d => d :: tailReports
              | none => tailReports),
             msgs ++ tailMsgs)

/-- Lexicographic comparison of character lists by code point, the order
Python uses to compare strings (and hence to sort the directory listing). -/
def charListLe : List Char → List Char → Bool
  | [], _ => true
  | _ :: _, [] => false
  | a :: as, b :: bs =>
    if a.toNat < b.toNat then true
    else if b.toNat < a.toNat then false
    else charListLe as bs

/-- Lexicographic order on filenames. -/
def fileNameLe (a b : String) : Bool := charListLe a.data b.data

/-- Insertion of a file into a filename-sorted list. -/
def insertFile (f : String × Json) : List (String × Json) → List (String × Json)
  | [] => [f]
  | g :: rest => if fileNameLe f.1 g.1 then f :: g :: rest else g :: insertFile f rest

/-- Model of `sorted(artifact_folder.iterdir())` at line 263: the directory
entries in lexicographically sorted filename order. -/
def sortFiles : List (String × Json) → List (String × Json)
  | [] => []
  | f :: rest => insertFile f (sortFiles rest)

/-- Lines 253-286: iterate over the directory in sorted order, skip old-format
files, retain reports whose boards carry sizes data, and print the no-deltas
diagnostic when nothing was retained. The directory is modelled as a list of
(filename, parsed JSON content) pairs. -/
def get_sketches_reports (files : List (String × Json)) :
    Except PyErr (List Json × List String) :=
  match processFiles (sortFiles files) with
  | .error e => .error e
  | .ok (reports, msgs) =>
    .ok (reports, msgs ++ (if reports.isEmpty then [noDeltasMsg] else []))

/-- A report file the loader retains: the old-format probe runs without an
exception and answers "new format". -/
def wellFormedFile (report_data : Json) : Bool :=
  match probeOldFormat report_data with
  | .ok false => true
  | _ => false

/-! ## Lemmas about the report loader -/

lemma wellFormed_step_data {d : Json} (h : probeOldFormat d = .ok false) :
    ∃ fqbns, d.getKey "boards" = Except.ok (Json.arr fqbns)
      ∧ anyBoardHasSizes fqbns = Except.ok true := by
  unfold probeOldFormat at h
  cases hc : d.containsKey "boards" with
  | error e => simp [hc] at h
  | ok hasB =>
    cases hasB with
    | false => simp [hc] at h
    | true =>
      simp only [hc] at h
      cases hk : d.getKey "boards" with
      | error e => simp [hk] at h
      | ok boards =>
        simp only [hk] at h
        cases hi : boards.getIdx 0 with
        | error e => simp [hi] at h
        | ok board0 =>
          simp only [hi] at h
          cases hs : board0.getKey "sizes" with
          | error e => simp [hs] at h
          | ok sizes =>
            cases board0 with
            | obj bf =>
              cases boards with
              | arr elems =>
                cases elems with
                | nil => simp [Json.getIdx] at hi
                | cons b0 rest =>
                  have hb0 : b0 = Json.obj bf := by
                    simpa [Json.getIdx] using hi
                  refine ⟨Json.obj bf :: rest, by rw [hb0], ?_⟩
                  have hlook : (lookupKey bf "sizes").isSome = true := by
                    unfold Json.getKey at hs
                    cases hl : lookupKey bf "sizes" with
                    | none => simp [hl] at hs
                    | some v => simp [hl]
                  unfold anyBoardHasSizes
                  simp [Json.containsKey, hlook]
              | str s =>
                have hi' : (match s.data.get? 0 with
                    | some c => Except.ok (Json.str (String.mk [c]))
                    | none => Except.error PyErr.indexError) = Except.ok (Json.obj bf) := hi
                cases hg : s.data.get? 0 with
                | none => rw [hg] at hi'; simp at hi'
                | some c => rw [hg] at hi'; simp at hi'
              | obj o => simp [Json.getIdx] at hi
              | null => simp [Json.getIdx] at hi
              | bool b => simp [Json.getIdx] at hi
              | num n => simp [Json.getIdx] at hi
            | null => simp [Json.getKey] at hs
            | bool b => simp [Json.getKey] at hs
            | num n => simp [Json.getKey] at hs
            | str s2 => simp [Json.getKey] at hs
            | arr a2 => simp [Json.getKey] at hs

lemma stepFile_of_wellFormed {d : Json} (h : probeOldFormat d = .ok false) :
    stepFile d = .ok (some d, []) := by
  obtain ⟨fqbns, hk, hany⟩ := wellFormed_step_data h
  unfold stepFile
  simp only [h, hk, hany]

lemma stepFile_of_oldFormat {d : Json} (h : probeOldFormat d = .ok true) :
    stepFile d = .ok (none, [oldFormatMsg]) := by
  unfold stepFile
  simp only [h]

lemma wellFormedFile_eq_true {d : Json} (h : probeOldFormat d = .ok false) :
    wellFormedFile d = true := by
  unfold wellFormedFile
  simp only [h]

lemma wellFormedFile_eq_false {d : Json} (h : probeOldFormat d = .ok true) :
    wellFormedFile d = false := by
  unfold wellFormedFile
  simp only [h]

lemma processFiles_ok (l : List (String × Json))
    (h : ∀ f ∈ l, ∃ b, probeOldFormat f.2 = .ok b) :
    ∃ msgs, processFiles l
      = .ok ((l.filter (fun f => wellFormedFile f.2)).map Prod.snd, msgs) := by
  induction l with
  | nil => exact ⟨[], rfl⟩
  | cons f rest ih =>
    obtain ⟨b, hb⟩ := h f (List.mem_cons_self f rest)
    obtain ⟨msgs, hmsgs⟩ := ih (fun g hg => h g (List.mem_cons_of_mem f hg))
    cases b with
    | false =>
      refine ⟨msgs, ?_⟩
      unfold processFiles
      rw [stepFile_of_wellFormed hb, hmsgs]
      simp [List.filter_cons, wellFormedFile_eq_true hb]
    | true =>
      refine ⟨oldFormatMsg :: msgs, ?_⟩
      unfold processFiles
      rw [stepFile_of_oldFormat hb, hmsgs]
      simp [List.filter_cons, wellFormedFile_eq_false hb]

lemma charListLe_total (as : List Char) :
    ∀ bs, charListLe as bs = false → charListLe bs as = true := by
  induction as with
  | nil => intro bs h; simp [charListLe] at h
  | cons a as ih =>
    intro bs h
    cases bs with
    | nil => simp [charListLe]
    | cons b bs =>
      unfold charListLe at h ⊢
      by_cases hab : a.toNat < b.toNat
      · rw [if_pos hab] at h
        simp at h
      · rw [if_neg hab] at h
        by_cases hba : b.toNat < a.toNat
        · rw [if_pos hba]
        · rw [if_neg hba] at h
          rw [if_neg hba, if_neg hab]
          exact ih bs h

lemma charListLe_trans (as : List Char) :
    ∀ bs cs, charListLe as bs = true → charListLe bs cs = true →
      charListLe as cs = true := by
  induction as with
  | nil => intro bs cs _ _; simp [charListLe]
  | cons a as ih =>
    intro bs cs h1 h2
    cases bs with
    | nil => simp [charListLe] at h1
    | cons b bs =>
      cases cs with
      | nil => simp [charListLe] at h2
      | cons c cs =>
        unfold charListLe at h1 h2 ⊢
        by_cases hab : a.toNat < b.toNat
        · by_cases hbc : b.toNat < c.toNat
          · rw [if_pos (Nat.lt_trans hab hbc)]
          · rw [if_neg hbc] at h2
            by_cases hcb : c.toNat < b.toNat
            · rw [if_pos hcb] at h2
              simp at h2
            · have hbceq : b.toNat = c.toNat :=
                Nat.le_antisymm (Nat.le_of_not_lt hcb) (Nat.le_of_not_lt hbc)
              rw [if_pos (hbceq ▸ hab)]
        · rw [if_neg hab] at h1
          by_cases hba : b.toNat < a.toNat
          · rw [if_pos hba] at h1
            simp at h1
          · rw [if_neg hba] at h1
            have habeq : a.toNat = b.toNat :=
              Nat.le_antisymm (Nat.le_of_not_lt hba) (Nat.le_of_not_lt hab)
            by_cases hbc : b.toNat < c.toNat
            · rw [if_pos (Nat.lt_of_le_of_lt (Nat.le_of_eq habeq) hbc)]
            · rw [if_neg hbc] at h2
              by_cases hcb : c.toNat < b.toNat
              · rw [if_pos hcb] at h2
                simp at h2
              · rw [if_neg hcb] at h2
                have hbceq : b.toNat = c.toNat :=
                  Nat.le_antisymm (Nat.le_of_not_lt hcb) (Nat.le_of_not_lt hbc)
                have haceq : a.toNat = c.toNat := habeq.trans hbceq
                have hac : ¬ a.toNat < c.toNat := by
                  rw [haceq]
                  exact Nat.lt_irrefl _
                have hca : ¬ c.toNat < a.toNat := by
                  rw [haceq]
                  exact Nat.lt_irrefl _
                rw [if_neg hac, if_neg hca]
                exact ih bs cs h1 h2

lemma fileNameLe_total {a b : String} (h : fileNameLe a b = false) :
    fileNameLe b a = true :=
  charListLe_total a.data b.data h

lemma fileNameLe_trans {a b c : String} (h1 : fileNameLe a b = true)
    (h2 : fileNameLe b c = true) : fileNameLe a c = true :=
  charListLe_trans a.data b.data c.data h1 h2

lemma insertFile_perm (f : String × Json) (l : List (String × Json)) :
    (insertFile f l).Perm (f :: l) := by
  induction l with
  | nil => exact List.Perm.refl _
  | cons g rest ih =>
    unfold insertFile
    cases hle : fileNameLe f.1 g.1 with
    | true => rw [if_pos rfl]
    | false =>
      rw [if_neg (by simp)]
      exact (ih.cons g).trans (List.Perm.swap f g rest)

lemma sortFiles_perm (l : List (String × Json)) : (sortFiles l).Perm l := by
  induction l with
  | nil => exact List.Perm.refl _
  | cons f rest ih =>
    unfold sortFiles
    exact (insertFile_perm f (sortFiles rest)).trans (ih.cons f)

lemma insertFile_sorted (f : String × Json) (l : List (String × Json))
    (hl : l.Pairwise (fun a b => fileNameLe a.1 b.1 = true)) :
    (insertFile f l).Pairwise (fun a b => fileNameLe a.1 b.1 = true) := by
  induction l with
  | nil => simp [insertFile]
  | cons g rest ih =>
    rcases List.pairwise_cons.mp hl with ⟨hg, hrest⟩
    unfold insertFile
    cases hle : fileNameLe f.1 g.1 with
    | true =>
      rw [if_pos rfl]
      refine List.pairwise_cons.mpr ⟨?_, hl⟩
      intro b hb
      rcases List.mem_cons.mp hb with rfl | hb'
      · exact hle
      · exact fileNameLe_trans hle (hg b hb')
    | false =>
      rw [if_neg (by simp)]
      refine List.pairwise_cons.mpr ⟨?_, ih hrest⟩
      intro b hb
      rcases List.mem_cons.mp ((insertFile_perm f rest).mem_iff.mp hb) with rfl | hb'
      · exact fileNameLe_total hle
      · exact hg b hb'

lemma sortFiles_sorted (l : List (String × Json)) :
    (sortFiles l).Pairwise (fun a b => fileNameLe a.1 b.1 = true) := by
  induction l with
  | nil => exact List.Pairwise.nil
  | cons f rest ih =>
    unfold sortFiles
    exact insertFile_sorted f (sortFiles rest) ih

/-! ## Claim theorems about the report loader -/

/-- C8: for a directory in which every file is either well-formed
(the probe succeeds and answers new-format) or safely old-format (the probe
succeeds and answers old-format), the loader returns exactly the well-formed
reports, taken in lexicographically-sorted filename order; the processing
order is a sorted permutation of the directory, so the positions of the
old-format files are irrelevant. -/
theorem loader_returns_wellformed_sorted (files : List (String × Json))
    (h : ∀ f ∈ files, ∃ b, probeOldFormat f.2 = .ok b) :
    Except.map Prod.fst (get_sketches_reports files)
        = .ok (((sortFiles files).filter (fun f => wellFormedFile f.2)).map Prod.snd)
      ∧ (sortFiles files).Perm files
      ∧ (sortFiles files).Pairwise (fun a b => fileNameLe a.1 b.1 = true) := by
  refine ⟨?_, sortFiles_perm files, sortFiles_sorted files⟩
  have hs : ∀ f ∈ sortFiles files, ∃ b, probeOldFormat f.2 = .ok b := by
    intro f hf
    exact h f ((sortFiles_perm files).mem_iff.mp hf)
  obtain ⟨msgs, hmsgs⟩ := processFiles_ok (sortFiles files) hs
  unfold get_sketches_reports
  rw [hmsgs]
  rfl

theorem loader_returns_wellformed_sorted_witness :
    Except.map Prod.fst
        (get_sketches_reports
          [("b.json", Json.obj [("boards",
              Json.arr [Json.obj [("sizes", Json.arr [Json.obj [("maximum", Json.num 100)]])]])]),
           ("a.json", Json.obj [("version", Json.num 1)])])
      = .ok [Json.obj [("boards",
          Json.arr [Json.obj [("sizes", Json.arr [Json.obj [("maximum", Json.num 100)]])]])]] := by
  have h := loader_returns_wellformed_sorted
    [("b.json", Json.obj [("boards",
        Json.arr [Json.obj [("sizes", Json.arr [Json.obj [("maximum", Json.num 100)]])]])]),
     ("a.json", Json.obj [("version", Json.num 1)])]
    (by
      intro f hf
      rcases List.mem_cons.mp hf with rfl | hf'
      · exact ⟨false, rfl⟩
      · rcases List.mem_cons.mp hf' with rfl | hf''
        · exact ⟨true, rfl⟩
        · cases hf'')
  exact h.1.trans (by rfl)

/-- C9 (amended): a parseable file that the probe classifies as old-format
without an exception (the boards key is absent, or the probed
boards[0].sizes[0] object exists but lacks the maximum key) is skipped with
the diagnostic message and processing continues over the remaining files;
the skipped file never makes the kept-report list differ. -/
theorem old_format_skipped (d : Json) (h : probeOldFormat d = .ok true) :
    stepFile d = .ok (none, [oldFormatMsg])
    ∧ ∀ (fname : String) (rest : List (String × Json)),
        Except.map Prod.fst (processFiles ((fname, d) :: rest))
          = Except.map Prod.fst (processFiles rest) := by
  refine ⟨stepFile_of_oldFormat h, ?_⟩
  intro fname rest
  rw [processFiles, stepFile_of_oldFormat h]
  cases hr : processFiles rest with
  | error e => rfl
  | ok pr => rfl

theorem old_format_skipped_witness :
    stepFile (Json.obj [("version", Json.num 1)]) = .ok (none, [oldFormatMsg]) := by
  exact (old_format_skipped (Json.obj [("version", Json.num 1)]) rfl).1

/-- C9 counterexample: a parseable report whose boards collection is present
but empty is not skipped; the probe expression `report_data[boards][0]`
raises an uncaught IndexError, so the loader fails instead of continuing. -/
theorem empty_boards_raises :
    get_sketches_reports [("a.json", Json.obj [("boards", Json.arr [])])]
      = .error .indexError := by
  rfl

/-! ## Pagination resolution

`get_json_response` (databasecheck.py lines 326-359) parses the body, sets
`page_count = 0` for a falsy JSON value, and otherwise calls the module-level
function `get_page_count` on the Link header. -/

/-- Splitting a character list at every occurrence of a separator char. -/
def splitOnChar (sep : Char) : List Char → List (List Char)
  | [] => [[]]
  | c :: rest =>
    match splitOnChar sep rest with
    | [] => if c = sep then [[], []] else [[c]]
    | s :: ss => if c = sep then [] :: s :: ss else (c :: s) :: ss

/-- Removal of leading spaces and tabs. -/
def dropLeadingSpaces : List Char → List Char
  | [] => []
  | c :: rest => if c = ' ' ∨ c = '\t' then dropLeadingSpaces rest else c :: rest

/-- Removal of leading and trailing whitespace (Python `str.strip`). -/
def trimChars (l : List Char) : List Char :=
  (dropLeadingSpaces (dropLeadingSpaces l.reverse).reverse)

/-- Whether one comma-separated entry of a Link header carries the relation
"last", written as a `rel="last"` parameter after a semicolon. -/
def entryHasLastRel (entry : List Char) : Bool :=
  (splitOnChar ';' entry).any (fun part => trimChars part = "rel=\"last\"".data)

/-- When the pattern is a prefix of the list, the remainder after it. -/
def dropPrefixQ : List Char → List Char → Option (List Char)
  | [], l => some l
  | _ :: _, [] => none
  | p :: ps, c :: cs => if c = p then dropPrefixQ ps cs else none

/-- The characters following the first occurrence of the pattern. -/
def findAfter (pat : List Char) : List Char → Option (List Char)
  | [] => dropPrefixQ pat []
  | c :: cs =>
    match dropPrefixQ pat (c :: cs) with
    | some rest => some rest
    | none => findAfter pat cs

/-- Reading of a leading run of decimal digits; `none` when there is none. -/
def parseDigits (l : List Char) : Option Nat :=
  match l.takeWhile (fun c => c.isDigit) with
  | [] => none
  | ds => some (ds.foldl (fun acc c => 10 * acc + (c.toNat - 48)) 0)

/-- Extraction of the page-number query parameter from a Link header entry:
the digits following "page="; defensively 1 when absent or non-numeric. -/
def extractPageNumber (entry : List Char) : Nat :=
  match findAfter "page=".data entry with
  | some rest =>
    match parseDigits rest with
    | some n => n
    | none => 1
  | none => 1

/-- Modelled from the spec: the module-level function `get_page_count` is
called at databasecheck.py line 351 but is not defined under src/. Per the
spec (section 4.2) it parses the comma-separated relation entries of the Link
header, finds the entry whose relation is "last", extracts its page-number
query parameter as the total page count, and returns 1 when no "last"
relation is present; it is total (must not throw on malformed headers). -/
def get_page_count (link_header : String) : Nat :=
  match (splitOnChar ',' link_header.data).find? entryHasLastRel with
  | some entry => extractPageNumber entry
  | none => 1

/-- The error raised by `json.loads` for an unparseable body
(`json.decoder.JSONDecodeError`, re-raised at line 343). -/
inductive JsonDecodeError where
  | decodeError
deriving DecidableEq, Repr

/-- The dictionary returned by `get_json_response`. -/
structure ApiResponse where
  json_data : Json
  additional_pages : Bool
  page_count : Nat
deriving Repr

/-- Lines 326-359: the parsed body (the result of `json.loads`) and the Link
header determine the result; a falsy JSON value yields page_count 0, and
otherwise `get_page_count` of the Link header, with additional_pages exactly
when more than one page exists. -/
def get_json_response (parsed_body : Except JsonDecodeError Json)
    (link_header : String) : Except JsonDecodeError ApiResponse :=
  match parsed_body with
  | .error e => .error e
  | .ok json_data =>
    if !json_data.isTruthy then
      .ok { json_data := json_data, additional_pages := false, page_count := 0 }
    else
      let page_count := get_page_count link_header
      .ok { json_data := json_data
            additional_pages := decide (page_count > 1)
            page_count := page_count }

/-! ## Transport layer: retry loop and rate-limit gate -/

/-- Outcome of one `urllib.request.urlopen` attempt. -/
inductive AttemptOutcome (ε α : Type) where
  | ok (a : α)
  | exc (e : ε)

/-- Observable result of `raw_http_request`: a response, a propagated
exception, `sys.exit` with the given status, or the final `TimeoutError`
(line 407). -/
inductive ReqResult (ε α : Type) where
  | ok (a : α)
  | raised (e : ε)
  | exited (code : Nat)
  | timeout
deriving Repr

/-- Line 386: `maximum_urlopen_retries = 3`. -/
def maximum_urlopen_retries : Nat := 3

/-- Whether the first list of characters is an initial segment of the second
(Python `str.startswith`). -/
def charsStartWith : List Char → List Char → Bool
  | [], _ => true
  | _ :: _, [] => false
  | p :: ps, c :: cs => if p = c then charsStartWith ps cs else false

/-- Line 399: the rate-limit status is consulted before a request to the API
host, except for requests to the rate-limit endpoint itself. -/
def rate_check_applies (url : String) : Bool :=
  charsStartWith "https://api.github.com".data url.data
    && !(charsStartWith "https://api.github.com/rate_limit".data url.data)

/-- The `while retry_count <= maximum_urlopen_retries` loop of
`raw_http_request` (lines 394-407), with `fuel` attempts remaining and `made`
urlopen calls already made. Each iteration first runs the rate-limit gate
(`handle_rate_limiting`, lines 409-426: `sys.exit(0)` when the remaining core
quota is 0 — `SystemExit` is not caught by the `except Exception` clause),
then attempts `urlopen`; an exception the caller-supplied predicate rejects
is re-raised, a retryable one continues the loop; an exhausted loop raises
`TimeoutError`. The outcome of the k-th urlopen call is `attempts k`, and the
pair returned counts the urlopen calls made. -/
def rawHttpRequestLoop {ε α : Type} (gate : Bool) (remaining : Nat)
    (attempts : Nat → AttemptOutcome ε α) (retryable : ε → Bool) :
    Nat → Nat → ReqResult ε α × Nat
  | made, 0 => (.timeout, made)
  | made, fuel + 1 =>
    if gate && decide (remaining = 0) then (.exited 0, made)
    else
      match attempts made with
      | .ok a => (.ok a, made + 1)
      | .exc e =>
        if retryable e then rawHttpRequestLoop gate remaining attempts retryable (made + 1) fuel
        else (.raised e, made + 1)

/-- Lines 377-407: the full request, parameterised by the url, the remaining
core-API quota reported by the rate-limit endpoint, the outcome of each
successive urlopen attempt, and the retryability predicate
(`determine_urlopen_retry`, supplied from outside this class). -/
def raw_http_request {ε α : Type} (url : String) (remaining : Nat)
    (attempts : Nat → AttemptOutcome ε α) (retryable : ε → Bool) :
    ReqResult ε α × Nat :=
  rawHttpRequestLoop (rate_check_applies url) remaining attempts retryable 0
    (maximum_urlopen_retries + 1)

/-! ## Artifact fetch -/

/-- Observable outcome of `get_artifact` (lines 226-251): the returned value
or propagated exception, whether the scoped temporary directory was released
(`artifact_folder_object.cleanup()` at line 250), and whether the archive
file was removed (`os.remove` at line 245). -/
structure ArtifactOutcome (ε : Type) where
  result : Except ε Unit
  temp_dir_released : Bool
  archive_removed : Bool
deriving Repr

/-- Lines 226-251: create the scoped temporary directory, download the
archive into it, unzip it, remove the archive and return the directory
object; on any exception from the download or unpack steps, release the
directory and re-raise. `download` and `unzip` stand for the outcome of the
two fallible steps; `.ok ()` in `result` stands for the returned directory
handle. -/
def get_artifact {ε : Type} (download unzip : Except ε Unit) : ArtifactOutcome ε :=
  match download with
  | .error e => { result := .error e, temp_dir_released := true, archive_removed := false }
  | .ok _ =>
    match unzip with
    | .error e => { result := .error e, temp_dir_released := true, archive_removed := false }
    | .ok _ => { result := .ok (), temp_dir_released := false, archive_removed := true }

/-- Whether an Except value is a success. -/
def exceptIsOk {ε α : Type} : Except ε α → Bool
  | .ok _ => true
  | .error _ => false

/-! ## Claim theorems: pagination, transport, artifact fetch -/

lemma get_page_count_no_last {link : String}
    (h : (splitOnChar ',' link.data).all (fun e => !entryHasLastRel e) = true) :
    get_page_count link = 1 := by
  unfold get_page_count
  have hfind : (splitOnChar ',' link.data).find? entryHasLastRel = none := by
    rw [List.find?_eq_none]
    intro x hx
    have hx' := List.all_eq_true.mp h x hx
    simp only [Bool.not_eq_true', Bool.not_eq_true] at hx' ⊢
    exact hx'
  rw [hfind]

/-- C4: page-count resolution is a total function of the response: a truthy
parsed body with a Link header carrying no "last" relation entry resolves to
page_count 1; a falsy (empty) parsed body resolves to page_count 0; and
`get_page_count` returns a value on every header string (it cannot raise). -/
theorem page_count_resolution (j : Json) (link : String) :
    (j.isTruthy = true →
      (splitOnChar ',' link.data).all (fun e => !entryHasLastRel e) = true →
      get_json_response (.ok j) link
        = .ok { json_data := j, additional_pages := false, page_count := 1 })
    ∧ (j.isTruthy = false →
      get_json_response (.ok j) link
        = .ok { json_data := j, additional_pages := false, page_count := 0 })
    ∧ ∃ n, get_page_count link = n := by
  refine ⟨?_, ?_, ⟨get_page_count link, rfl⟩⟩
  · intro ht hnolast
    simp only [get_json_response, ht, Bool.not_true, Bool.false_eq_true, if_false,
      get_page_count_no_last hnolast]
    rfl
  · intro hf
    simp only [get_json_response, hf, Bool.not_false, if_true]

theorem page_count_resolution_witness :
    (get_json_response (.ok (Json.arr [Json.num 1]))
        "<https://api.github.com/repositories/1/pulls?page=2>; rel=\"next\""
      = .ok { json_data := Json.arr [Json.num 1], additional_pages := false, page_count := 1 })
    ∧ (get_json_response (.ok (Json.arr []))
        "<https://api.github.com/repositories/1/pulls?page=2>; rel=\"next\""
      = .ok { json_data := Json.arr [], additional_pages := false, page_count := 0 }) := by
  constructor
  · exact (page_count_resolution (Json.arr [Json.num 1])
      "<https://api.github.com/repositories/1/pulls?page=2>; rel=\"next\"").1
      (by rfl) (by decide)
  · exact (page_count_resolution (Json.arr [])
      "<https://api.github.com/repositories/1/pulls?page=2>; rel=\"next\"").2.1
      (by rfl)

lemma loop_ok {ε α : Type} {gate : Bool} {remaining : Nat}
    {attempts : Nat → AttemptOutcome ε α} {retryable : ε → Bool}
    (hg : (gate && decide (remaining = 0)) = false) (fuel made : Nat) {a : α}
    (ha : attempts made = .ok a) :
    rawHttpRequestLoop gate remaining attempts retryable made (fuel + 1)
      = (.ok a, made + 1) := by
  unfold rawHttpRequestLoop
  simp only [hg, Bool.false_eq_true, if_false, ha]

lemma loop_exc_retry {ε α : Type} {gate : Bool} {remaining : Nat}
    {attempts : Nat → AttemptOutcome ε α} {retryable : ε → Bool}
    (hg : (gate && decide (remaining = 0)) = false) (fuel made : Nat) {e : ε}
    (he : attempts made = .exc e) (hr : retryable e = true) :
    rawHttpRequestLoop gate remaining attempts retryable made (fuel + 1)
      = rawHttpRequestLoop gate remaining attempts retryable (made + 1) fuel := by
  conv_lhs => unfold rawHttpRequestLoop
  simp only [hg, Bool.false_eq_true, if_false, he, hr, if_true]

lemma loop_exc_stop {ε α : Type} {gate : Bool} {remaining : Nat}
    {attempts : Nat → AttemptOutcome ε α} {retryable : ε → Bool}
    (hg : (gate && decide (remaining = 0)) = false) (fuel made : Nat) {e : ε}
    (he : attempts made = .exc e) (hr : retryable e = false) :
    rawHttpRequestLoop gate remaining attempts retryable made (fuel + 1)
      = (.raised e, made + 1) := by
  unfold rawHttpRequestLoop
  simp only [hg, Bool.false_eq_true, if_false, he, hr]

lemma loop_all_retryable {ε α : Type} {gate : Bool} {remaining : Nat}
    {attempts : Nat → AttemptOutcome ε α} {retryable : ε → Bool}
    (hg : (gate && decide (remaining = 0)) = false) :
    ∀ fuel made,
      (∀ i, made ≤ i → i < made + fuel → ∃ e, attempts i = .exc e ∧ retryable e = true) →
      rawHttpRequestLoop gate remaining attempts retryable made fuel
        = (.timeout, made + fuel) := by
  intro fuel
  induction fuel with
  | zero => intro made _; rfl
  | succ n ih =>
    intro made h
    obtain ⟨e, he, hre⟩ := h made (Nat.le_refl _) (by omega)
    rw [loop_exc_retry hg n made he hre,
      ih (made + 1) (fun i h1 h2 => h i (by omega) (by omega))]
    congr 1
    omega

lemma loop_nonretryable {ε α : Type} {gate : Bool} {remaining : Nat}
    {attempts : Nat → AttemptOutcome ε α} {retryable : ε → Bool}
    (hg : (gate && decide (remaining = 0)) = false) :
    ∀ fuel made k, k < fuel →
      (∀ i, made ≤ i → i < made + k → ∃ e2, attempts i = .exc e2 ∧ retryable e2 = true) →
      ∀ e, attempts (made + k) = .exc e → retryable e = false →
      rawHttpRequestLoop gate remaining attempts retryable made fuel
        = (.raised e, made + k + 1) := by
  intro fuel
  induction fuel with
  | zero => intro made k hk; omega
  | succ n ih =>
    intro made k hk hpre e he hre
    cases k with
    | zero =>
      rw [Nat.add_zero] at he
      rw [loop_exc_stop hg n made he hre, Nat.add_zero]
    | succ m =>
      obtain ⟨e0, he0, hre0⟩ := hpre made (Nat.le_refl _) (by omega)
      rw [loop_exc_retry hg n made he0 hre0]
      have := ih (made + 1) m (by omega)
        (fun i h1 h2 => hpre i (by omega) (by omega)) e (by
          rw [show made + 1 + m = made + (m + 1) by omega]
          exact he) hre
      rw [this]
      congr 1
      omega

/-- C5: with the rate-limit gate not firing, each urlopen exception is passed
to the caller-supplied retryability predicate; if every attempt raises a
retryable exception the loop makes exactly `maximum_urlopen_retries + 1 = 4`
attempts and then raises TimeoutError; a non-retryable exception at any
attempt is re-raised immediately with no further attempt; a first successful
attempt returns the response after one urlopen call. -/
theorem retry_semantics {ε α : Type} (url : String) (remaining : Nat)
    (attempts : Nat → AttemptOutcome ε α) (retryable : ε → Bool)
    (hgate : rate_check_applies url = false ∨ remaining ≠ 0) :
    ((∀ i, i < maximum_urlopen_retries + 1 →
        ∃ e, attempts i = .exc e ∧ retryable e = true) →
      raw_http_request url remaining attempts retryable
        = (.timeout, maximum_urlopen_retries + 1))
    ∧ (∀ k e, k < maximum_urlopen_retries + 1 →
        (∀ i, i < k → ∃ e2, attempts i = .exc e2 ∧ retryable e2 = true) →
        attempts k = .exc e → retryable e = false →
        raw_http_request url remaining attempts retryable = (.raised e, k + 1))
    ∧ (∀ a, attempts 0 = .ok a →
        raw_http_request url remaining attempts retryable = (.ok a, 1)) := by
  have hg : (rate_check_applies url && decide (remaining = 0)) = false := by
    rcases hgate with h | h
    · rw [h]
      rfl
    · rw [decide_eq_false h]
      exact Bool.and_false _
  refine ⟨?_, ?_, ?_⟩
  · intro h
    unfold raw_http_request
    rw [loop_all_retryable hg (maximum_urlopen_retries + 1) 0
      (fun i h1 h2 => h i (by omega))]
    simp
  · intro k e hk hpre he hre
    unfold raw_http_request
    rw [loop_nonretryable hg (maximum_urlopen_retries + 1) 0 k hk
      (fun i h1 h2 => hpre i (by omega)) e (by simpa using he) hre]
    simp
  · intro a ha
    unfold raw_http_request
    rw [show maximum_urlopen_retries + 1 = 3 + 1 from rfl, loop_ok hg 3 0 ha]

theorem retry_semantics_witness :
    raw_http_request "https://example.com/archive.zip" 5000
        (fun _ => AttemptOutcome.exc 7) (fun _ : Nat => true)
      = (ReqResult.timeout (α := Unit), maximum_urlopen_retries + 1) := by
  exact (retry_semantics "https://example.com/archive.zip" 5000
    (fun _ => AttemptOutcome.exc 7) (fun _ : Nat => true)
    (Or.inl (by decide))).1 (fun i _ => ⟨7, rfl, rfl⟩)

/-- C6: for a request to the remote API host other than the rate-limit
endpoint itself, a remaining core-API quota of 0 makes the process exit with
status 0 before any urlopen attempt is made, whatever the attempt outcomes
and retryability predicate would have been. -/
theorem rate_limit_exhaustion_exits {ε α : Type} (url : String)
    (attempts : Nat → AttemptOutcome ε α) (retryable : ε → Bool)
    (hgate : rate_check_applies url = true) :
    raw_http_request url 0 attempts retryable = (.exited 0, 0) := by
  unfold raw_http_request
  rw [hgate]
  rfl

theorem rate_limit_exhaustion_exits_witness :
    raw_http_request "https://api.github.com/repos/octocat/Hello-World/pulls" 0
        (fun _ => AttemptOutcome.ok ()) (fun _ : Nat => true)
      = (ReqResult.exited 0, 0) := by
  exact rate_limit_exhaustion_exits "https://api.github.com/repos/octocat/Hello-World/pulls"
    (fun _ => AttemptOutcome.ok ()) (fun _ : Nat => true) (by decide)

/-- C7: whichever of the download and unpack steps fails, the scoped
temporary directory is released and exactly that exception propagates; the
call succeeds exactly when both steps do, and then the directory is kept
(cleanup is not run), the archive file having been removed. -/
theorem artifact_cleanup {ε : Type} (download unzip : Except ε Unit) :
    (∀ e, download = .error e →
      get_artifact download unzip
        = { result := .error e, temp_dir_released := true, archive_removed := false })
    ∧ (∀ e, download = .ok () → unzip = .error e →
      get_artifact download unzip
        = { result := .error e, temp_dir_released := true, archive_removed := false })
    ∧ (exceptIsOk (get_artifact download unzip).result = true ↔
        download = .ok () ∧ unzip = .ok ())
    ∧ ((get_artifact download unzip).temp_dir_released
        = !(exceptIsOk (get_artifact download unzip).result))
    ∧ ((get_artifact download unzip).archive_removed
        = exceptIsOk (get_artifact download unzip).result) := by
  refine ⟨?_, ?_, ?_, ?_, ?_⟩
  · intro e he
    rw [he]
    rfl
  · intro e hd hu
    rw [hd, hu]
    rfl
  · cases download with
    | error e => simp [get_artifact, exceptIsOk]
    | ok u =>
      cases u
      cases unzip with
      | error e => simp [get_artifact, exceptIsOk]
      | ok v =>
        cases v
        simp [get_artifact, exceptIsOk]
  · cases download with
    | error e => rfl
    | ok u =>
      cases u
      cases unzip with
      | error e => rfl
      | ok v => cases v; rfl
  · cases download with
    | error e => rfl
    | ok u =>
      cases u
      cases unzip with
      | error e => rfl
      | ok v => cases v; rfl

theorem artifact_cleanup_witness :
    get_artifact (Except.error 0) (Except.ok ())
      = { result := Except.error (0 : Nat), temp_dir_released := true,
          archive_removed := false } :=
  (artifact_cleanup (Except.error (0 : Nat)) (Except.ok ())).1 0 rfl

end DatabaseCheck
